import Mathlib

/-!
# Grade calculator (`script.js`): shallow embedding and checked properties

The source computes with IEEE-754 doubles. Two embeddings of its arithmetic are given.

* The exact embedding (`GradeCalc.validateInputs`, `GradeCalc.calculate`, ...) takes numbers
  as rationals (`ℚ`). It carries the properties that are stated in exact arithmetic or that
  do not depend on rounding. A numeric variable that may hold `null` or `NaN` is a `JsNum`;
  the result of an arithmetic expression that may fail to be a finite number is an
  `Option ℚ`, with `none` standing for `NaN` or an infinity.
* The double-precision embedding (`GradeCalc.IEEE`) takes numbers as binary64 values with
  round-to-nearest-even, overflow to infinity, gradual underflow and `NaN`. It carries the
  properties that turn on the edges of the weight band and on underflow of the divisor.
-/

namespace GradeCalc

/-- Value of a numeric JavaScript variable: `null`, `NaN`, or a finite number. -/
inductive JsNum where
  | null
  | nan
  | num (q : ℚ)
  deriving DecidableEq, Repr

/-- Element of `state.components`, as pushed by `addComponent` (line 89). -/
structure Component where
  id : Nat
  name : String
  weight : ℚ
  score : Option ℚ
  deriving DecidableEq, Repr

/-- Element of the array returned by `collectComponentData` (line 260):
`weight` is `parseFloat(..) || 0`, `score` is `null` (here `none`) for a blank field. -/
structure ComponentData where
  name : String
  weight : ℚ
  score : Option ℚ
  deriving DecidableEq, Repr

/-- The `state` object of lines 9-15. -/
structure State where
  components : List Component
  finalWeight : JsNum
  targetGrade : JsNum
  scenarioValue : ℚ
  componentIdCounter : Nat
  deriving DecidableEq, Repr

/-- The object returned by `validateInputs`. -/
structure Validation where
  isValid : Bool
  message : String
  deriving DecidableEq, Repr

/-- The fields of the object returned by `calculate` on success (lines 352-359). -/
structure Success where
  requiredScore : Option ℚ
  currentWeighted : ℚ
  targetGrade : JsNum
  finalWeight : ℚ
  completedWeight : ℚ
  deriving DecidableEq, Repr

/-- The object returned by `calculate`: `{success: false, error}` or the success record. -/
inductive CalcResult where
  | failure (error : String)
  | success (r : Success)
  deriving DecidableEq, Repr

/-- The class added to the status element by `displayResults` (lines 392-412). -/
inductive Category where
  | secured
  | impossible
  | achievable
  | difficult
  | unlikely
  deriving DecidableEq, Repr

/-! ## Number helpers -/

/-- The expression `parseFloat(text) || 0`: `none` is the `NaN` that `parseFloat` gives
for a blank or unparseable field. -/
def parseFloatOrZero (parsed : Option ℚ) : ℚ :=
  match parsed with
  | some q => q
  | none => 0

/-- Decimal digits of `Number.prototype.toFixed(1)` for a non-negative number:
the integer `n` nearest to `10 * x` (the larger one on a tie), printed with one decimal. -/
def toFixed1Abs (x : ℚ) : String :=
  let n : Nat := (Int.floor (x * 10 + 1 / 2)).toNat
  toString (n / 10) ++ "." ++ toString (n % 10)

/-- The call `x.toFixed(1)` (below the 1e21 switch to exponent form): a negative number is
printed as a minus sign followed by the digits of its absolute value. -/
def toFixed1 (x : ℚ) : String :=
  if x < 0 then "-" ++ toFixed1Abs (-x) else toFixed1Abs x

/-- JavaScript subtraction `a - b` with the left operand a `JsNum`:
`null` converts to `0`, `NaN` propagates. -/
def jsSub (a : JsNum) (b : ℚ) : Option ℚ :=
  match a with
  | .null => some (0 - b)
  | .nan => none
  | .num q => some (q - b)

/-- JavaScript division `a / b`: a `NaN` numerator propagates and a zero divisor gives
an infinity or `NaN`, both `none`. -/
def jsDiv (a : Option ℚ) (b : ℚ) : Option ℚ :=
  match a with
  | none => none
  | some q => if b = 0 then none else some (q / b)

/-! ## Validation and calculation (lines 273-360) -/

/-- The function `validateInputs` (lines 273-305). The tests `!finalWeight` and
`finalWeight <= 0` are both true for `null`, and `!finalWeight` is true for `NaN`. -/
def validateInputs (components : List ComponentData) (finalWeight targetGrade : JsNum) :
    Validation :=
  match finalWeight with
  | .null => { isValid := false, message := "Please enter the final exam weight." }
  | .nan => { isValid := false, message := "Please enter the final exam weight." }
  | .num fw =>
    if fw = 0 ∨ fw ≤ 0 then
      { isValid := false, message := "Please enter the final exam weight." }
    else
      match targetGrade with
      | .null => { isValid := false, message := "Please select or enter a target grade." }
      | .nan => { isValid := false, message := "Please select or enter a target grade." }
      | .num _ =>
        let componentWeight := components.foldl (fun sum c => sum + c.weight) 0
        let totalWeight := componentWeight + fw
        if totalWeight < 9999 / 100 then
          { isValid := false,
            message := "Total weight is " ++ toFixed1 totalWeight ++
              "%. Weights must add up to exactly 100%." }
        else if totalWeight > 10001 / 100 then
          { isValid := false,
            message := "Total weight is " ++ toFixed1 totalWeight ++
              "%. Weights must add up to exactly 100%." }
        else
          { isValid := true, message := "" }

/-- The callback of `components.map` in `calculate` (lines 324-330). -/
def applyScenario (scenarioValue : ℚ) (c : ComponentData) : ComponentData :=
  if c.score = none ∧ c.weight > 0 then { c with score := some scenarioValue } else c

/-- One step of the `forEach` of lines 336-341 on the pair
`(currentWeightedScore, completedWeight)`. -/
def accumulate (acc : ℚ × ℚ) (c : ComponentData) : ℚ × ℚ :=
  match c.score with
  | some s => if c.weight > 0 then (acc.1 + (s * c.weight) / 100, acc.2 + c.weight) else acc
  | none => acc

/-- The function `calculate` (lines 311-360). `components` is the array returned by
`collectComponentData()`, `finalWeightInput` the result of `parseFloat` on the final-weight
field, `targetGrade` and `scenarioValue` the two fields of `state` it reads. -/
def calculate (components : List ComponentData) (finalWeightInput : Option ℚ)
    (targetGrade : JsNum) (scenarioValue : ℚ) : CalcResult :=
  let finalWeight := parseFloatOrZero finalWeightInput
  let validation := validateInputs components (.num finalWeight) targetGrade
  if !validation.isValid then
    .failure validation.message
  else
    let adjustedComponents := components.map (applyScenario scenarioValue)
    let totals := adjustedComponents.foldl accumulate (0, 0)
    let currentPoints := totals.1
    let finalWeightFraction := finalWeight / 100
    let requiredFinal := jsDiv (jsSub targetGrade currentPoints) finalWeightFraction
    .success
      { requiredScore := requiredFinal
        currentWeighted := currentPoints
        targetGrade := targetGrade
        finalWeight := finalWeight
        completedWeight := totals.2 }

/-- The `if`/`else` chain of `displayResults` (lines 392-412) on a finite score. -/
def statusCategory (score : ℚ) : Category :=
  if score ≤ 0 then .secured
  else if score > 100 then .impossible
  else if score ≤ 85 then .achievable
  else if score ≤ 95 then .difficult
  else .unlikely

/-! ## Component registry (lines 87-118, 489-520)

Only the effect on `state` is modelled; the DOM updates are presentation. The id counter is
a natural number: the source's double stops counting exactly only beyond `2^53` increments.
-/

/-- The `state` literal of lines 9-15. -/
def initialState : State :=
  { components := [], finalWeight := .null, targetGrade := .null, scenarioValue := 0,
    componentIdCounter := 0 }

/-- The function `addComponent` (lines 87-100): the id taken by `componentIdCounter++`
and the state after the `push`. -/
def addComponent (s : State) : Nat × State :=
  let id := s.componentIdCounter
  (id, { s with
    componentIdCounter := s.componentIdCounter + 1
    components := s.components ++ [{ id := id, name := "", weight := 0, score := none }] })

/-- The function `removeComponent` (lines 106-118): the `filter` on `state.components`. -/
def removeComponent (s : State) (id : Nat) : State :=
  { s with components := s.components.filter (fun c => c.id != id) }

/-- The function `resetCalculator` (lines 489-520): the ids taken by its two
`addComponent()` calls and the state they leave. -/
def resetCalculator (s : State) : List Nat × State :=
  let cleared : State :=
    { s with components := [], componentIdCounter := 0, targetGrade := .null,
             scenarioValue := 0 }
  let first := addComponent cleared
  let second := addComponent first.2
  ([first.1, second.1], second.2)

/-- A registry command of the user interface. -/
inductive Op where
  | add
  | remove (id : Nat)
  | reset
  deriving DecidableEq, Repr

/-- One command: the ids that `addComponent` assigned while it ran, and the new state. -/
def step (s : State) : Op → List Nat × State
  | .add => ([(addComponent s).1], (addComponent s).2)
  | .remove id => ([], removeComponent s id)
  | .reset => resetCalculator s

/-- State after a sequence of commands. -/
def run (s : State) : List Op → State
  | [] => s
  | op :: ops => run (step s op).2 ops

/-- Ids assigned by `addComponent` over a sequence of commands, in the order assigned. -/
def assignedIds (s : State) : List Op → List Nat
  | [] => []
  | op :: ops => (step s op).1 ++ assignedIds (step s op).2 ops

/-! ## Reference definitions, following the specification's wording -/

/-- Sum of the component weights. -/
def sumWeights (components : List ComponentData) : ℚ :=
  (components.map (fun c => c.weight)).sum

/-- Sum, over the components with weight `> 0`, of `s * weight / 100`, where `s` is the
component's own score when present and the scenario value when absent. -/
def specCurrentWeighted (components : List ComponentData) (scenarioValue : ℚ) : ℚ :=
  ((components.filter (fun c => decide (c.weight > 0))).map
    (fun c => c.score.getD scenarioValue * c.weight / 100)).sum

/-- Sum of the weights of the components with weight `> 0`: after the substitution each
of them has a score, so these are the components the accumulation counts. -/
def specCompletedWeight (components : List ComponentData) : ℚ :=
  ((components.filter (fun c => decide (c.weight > 0))).map (fun c => c.weight)).sum

/-- The threshold table of the classifier. -/
def specCategory (r : ℚ) (cat : Category) : Prop :=
  match cat with
  | .secured => r ≤ 0
  | .achievable => 0 < r ∧ r ≤ 85
  | .difficult => 85 < r ∧ r ≤ 95
  | .unlikely => 95 < r ∧ r ≤ 100
  | .impossible => r > 100

/-! ## Double-precision embedding

A finite double is an integer multiple of `2^-1074`, the smallest subnormal; `Dbl.fin n` is
the double of value `n * 2^-1074`. The two zeros are not told apart: the only divisor of the
program that can be zero is `finalWeight / 100` with `finalWeight > 0`, which is `+0`.
-/

namespace IEEE

/-- An IEEE-754 binary64 value: `NaN`, an infinity with its sign, or the finite value
`n * 2^-1074`. -/
inductive Dbl where
  | nan
  | inf (negative : Bool)
  | fin (n : Int)
  deriving DecidableEq, Repr

/-- The number of units in `1`: `2^1074`. -/
def scale : Nat := 2 ^ 1074

/-- Nearest integer to `a / d`, ties to the even one. -/
def roundHalfEven (a d : Nat) : Nat :=
  let q := a / d
  let r := a % d
  if 2 * r < d then q
  else if d < 2 * r then q + 1
  else if q % 2 = 0 then q
  else q + 1

/-- Binary logarithm by halving, at most `fuel` times. -/
def log2Fuel : Nat → Nat → Nat
  | 0, _ => 0
  | fuel + 1, n => if n < 2 then 0 else log2Fuel fuel (n / 2) + 1

/-- Floor of the binary logarithm (`0` at `0`). -/
def log2 (n : Nat) : Nat := log2Fuel n n

/-- Rounding of the non-negative rational `a / b`, counted in units of `2^-1074`, to the
53-bit significand grid: below `2^53` units the grid step is one unit (subnormals and the
first normal binades), above it is `2^(e - 52)` units for a value in `[2^e, 2^(e+1))`. -/
def roundUnits (a b : Nat) : Nat :=
  let k := log2 (a / b) - 52
  roundHalfEven a (b * 2 ^ k) * 2 ^ k

/-- First magnitude, in units, that is no longer finite: `2^1024`. -/
def maxUnits : Nat := 2 ^ 2098

/-- The double nearest to `± a / b` units, an infinity on overflow. -/
def roundDbl (negative : Bool) (a b : Nat) : Dbl :=
  let m := roundUnits a b
  if maxUnits ≤ m then .inf negative
  else if negative then .fin (-(m : Int)) else .fin (m : Int)

/-- The double nearest to the decimal `num / den`, as `parseFloat` and a numeric literal
give it. -/
def ofDecimal (num den : Nat) : Dbl := roundDbl false (num * scale) den

/-- The double of a natural number below `2^53`. -/
def ofNat (n : Nat) : Dbl := .fin ((n * scale : Nat) : Int)

/-- Double addition `x + y`. -/
def fadd : Dbl → Dbl → Dbl
  | .nan, _ => .nan
  | _, .nan => .nan
  | .inf s, .inf t => if s = t then .inf s else .nan
  | .inf s, .fin _ => .inf s
  | .fin _, .inf t => .inf t
  | .fin a, .fin b => roundDbl (decide (a + b < 0)) (a + b).natAbs 1

/-- Double negation `-x`. -/
def fneg : Dbl → Dbl
  | .nan => .nan
  | .inf s => .inf (!s)
  | .fin a => .fin (-a)

/-- Double subtraction `x - y`. -/
def fsub (x y : Dbl) : Dbl := fadd x (fneg y)

/-- Double multiplication `x * y`. -/
def fmul : Dbl → Dbl → Dbl
  | .nan, _ => .nan
  | _, .nan => .nan
  | .inf s, .inf t => .inf (s != t)
  | .inf s, .fin b => if b = 0 then .nan else .inf (s != decide (b < 0))
  | .fin a, .inf t => if a = 0 then .nan else .inf (decide (a < 0) != t)
  | .fin a, .fin b => roundDbl (decide (a * b < 0)) (a * b).natAbs scale

/-- Double division `x / y`, a zero divisor being `+0`. -/
def fdiv : Dbl → Dbl → Dbl
  | .nan, _ => .nan
  | _, .nan => .nan
  | .inf _, .inf _ => .nan
  | .inf s, .fin b => .inf (s != decide (b < 0))
  | .fin _, .inf _ => .fin 0
  | .fin a, .fin b =>
    if b = 0 then (if a = 0 then .nan else .inf (decide (a < 0)))
    else roundDbl (decide (a < 0) != decide (b < 0)) (a.natAbs * scale) b.natAbs

/-- Double comparison `x < y`: false when either side is `NaN`. -/
def flt : Dbl → Dbl → Bool
  | .nan, _ => false
  | _, .nan => false
  | .inf s, .inf t => s && !t
  | .inf s, .fin _ => s
  | .fin _, .inf t => !t
  | .fin a, .fin b => decide (a < b)

/-- Double comparison `x <= y`: false when either side is `NaN`. -/
def fle : Dbl → Dbl → Bool
  | .nan, _ => false
  | _, .nan => false
  | .inf s, .inf t => s || !t
  | .inf s, .fin _ => s
  | .fin _, .inf t => !t
  | .fin a, .fin b => decide (a ≤ b)

/-- The test `!x` on a number: true for `NaN` and for zero. -/
def falsy : Dbl → Bool
  | .nan => true
  | .inf _ => false
  | .fin n => decide (n = 0)

/-- The expression `x || 0` on a number. -/
def orZero (d : Dbl) : Dbl := if falsy d then .fin 0 else d

/-- Value of a variable that holds `null` or a number (`finalWeight`, `targetGrade`). -/
inductive JsVal where
  | null
  | num (d : Dbl)
  deriving DecidableEq, Repr

/-- Conversion of an operand to a number: `null` becomes `0`. -/
def toNumber : JsVal → Dbl
  | .null => .fin 0
  | .num d => d

/-- Element of the array returned by `collectComponentData` (line 260). -/
structure ComponentData where
  name : String
  weight : Dbl
  score : Option Dbl
  deriving DecidableEq, Repr

/-- The four messages of `validateInputs` (lines 276-304). `totalWeight t` is the template
with its argument, the computed total, before `toFixed(1)` prints it. -/
inductive Message where
  | empty
  | finalWeight
  | targetGrade
  | totalWeight (total : Dbl)
  deriving DecidableEq, Repr

/-- Text of a message, given the builtin `toFixed(1)`. -/
def Message.text (toFixed1 : Dbl → String) : Message → String
  | .empty => ""
  | .finalWeight => "Please enter the final exam weight."
  | .targetGrade => "Please select or enter a target grade."
  | .totalWeight total =>
    "Total weight is " ++ toFixed1 total ++ "%. Weights must add up to exactly 100%."

/-- The object returned by `validateInputs`. -/
structure Validation where
  isValid : Bool
  message : Message
  deriving DecidableEq, Repr

/-- The fields of the object returned by `calculate` on success (lines 352-359). -/
structure Success where
  requiredScore : Dbl
  currentWeighted : Dbl
  targetGrade : JsVal
  finalWeight : Dbl
  completedWeight : Dbl
  deriving DecidableEq, Repr

/-- The object returned by `calculate`. -/
inductive CalcResult where
  | failure (error : Message)
  | success (r : Success)
  deriving DecidableEq, Repr

/-- The function `validateInputs` (lines 273-305) on doubles. The literals `99.99` and
`100.01` are the doubles nearest to them, and the weights are added left to right. -/
def validateInputs (components : List ComponentData) (finalWeight targetGrade : JsVal) :
    Validation :=
  match finalWeight with
  | .null => { isValid := false, message := .finalWeight }
  | .num fw =>
    if falsy fw || fle fw (.fin 0) then
      { isValid := false, message := .finalWeight }
    else
      match targetGrade with
      | .null => { isValid := false, message := .targetGrade }
      | .num t =>
        if t = .nan then
          { isValid := false, message := .targetGrade }
        else
          let componentWeight := components.foldl (fun sum c => fadd sum c.weight) (.fin 0)
          let totalWeight := fadd componentWeight fw
          if flt totalWeight (ofDecimal 9999 100) then
            { isValid := false, message := .totalWeight totalWeight }
          else if flt (ofDecimal 10001 100) totalWeight then
            { isValid := false, message := .totalWeight totalWeight }
          else
            { isValid := true, message := .empty }

/-- The callback of `components.map` in `calculate` (lines 324-330) on doubles. -/
def applyScenario (scenarioValue : Dbl) (c : ComponentData) : ComponentData :=
  if c.score = none ∧ flt (.fin 0) c.weight = true then { c with score := some scenarioValue }
  else c

/-- One step of the `forEach` of lines 336-341 on doubles. -/
def accumulate (acc : Dbl × Dbl) (c : ComponentData) : Dbl × Dbl :=
  match c.score with
  | some s =>
    if flt (.fin 0) c.weight then
      (fadd acc.1 (fdiv (fmul s c.weight) (ofNat 100)), fadd acc.2 c.weight)
    else acc
  | none => acc

/-- The function `calculate` (lines 311-360) on doubles. `finalWeightInput` is the result of
`parseFloat` on the final-weight field (`NaN` for a blank field). -/
def calculate (components : List ComponentData) (finalWeightInput : Dbl)
    (targetGrade : JsVal) (scenarioValue : Dbl) : CalcResult :=
  let finalWeight := orZero finalWeightInput
  let validation := validateInputs components (.num finalWeight) targetGrade
  if !validation.isValid then
    .failure validation.message
  else
    let adjustedComponents := components.map (applyScenario scenarioValue)
    let totals := adjustedComponents.foldl accumulate (.fin 0, .fin 0)
    let currentPoints := totals.1
    let finalWeightFraction := fdiv finalWeight (ofNat 100)
    let requiredFinal := fdiv (fsub (toNumber targetGrade) currentPoints) finalWeightFraction
    .success
      { requiredScore := requiredFinal
        currentWeighted := currentPoints
        targetGrade := targetGrade
        finalWeight := finalWeight
        completedWeight := totals.2 }

/-- The total as the program computes it: the component weights added left to right in
double precision, starting from `0`, then the final weight added. -/
def computedTotal (components : List ComponentData) (finalWeight : Dbl) : Dbl :=
  fadd ((components.map (fun c => c.weight)).foldl fadd (.fin 0)) finalWeight

/-- Whether the real value of a double lies in the closed interval `[99.99, 100.01]` of the
exact decimals: for `n` units, `99.99 <= n * 2^-1074 <= 100.01`. -/
def exactInBand : Dbl → Bool
  | .fin n => decide (9999 * (scale : Int) ≤ 100 * n) && decide (100 * n ≤ 10001 * (scale : Int))
  | _ => false

end IEEE

/-! ## Lemmas -/

theorem foldl_weight_eq (components : List ComponentData) (a : ℚ) :
    components.foldl (fun sum c => sum + c.weight) a = a + sumWeights components := by
  induction components generalizing a with
  | nil => simp [sumWeights]
  | cons c cs ih =>
    simp only [List.foldl_cons, ih, sumWeights, List.map_cons, List.sum_cons]
    ring

theorem foldl_accumulate_fst (scenarioValue : ℚ) (components : List ComponentData)
    (acc : ℚ × ℚ) :
    ((components.map (applyScenario scenarioValue)).foldl accumulate acc).1 =
      acc.1 + specCurrentWeighted components scenarioValue := by
  induction components generalizing acc with
  | nil => simp [specCurrentWeighted]
  | cons c cs ih =>
    simp only [List.map_cons, List.foldl_cons, ih]
    rcases c with ⟨name, weight, score⟩
    by_cases hw : weight > 0
    · cases score <;>
        simp [applyScenario, accumulate, specCurrentWeighted, hw, List.filter_cons] <;> ring
    · cases score <;>
        simp [applyScenario, accumulate, specCurrentWeighted, hw, List.filter_cons]

theorem foldl_accumulate_snd (scenarioValue : ℚ) (components : List ComponentData)
    (acc : ℚ × ℚ) :
    ((components.map (applyScenario scenarioValue)).foldl accumulate acc).2 =
      acc.2 + specCompletedWeight components := by
  induction components generalizing acc with
  | nil => simp [specCompletedWeight]
  | cons c cs ih =>
    simp only [List.map_cons, List.foldl_cons, ih]
    rcases c with ⟨name, weight, score⟩
    by_cases hw : weight > 0
    · cases score <;>
        simp [applyScenario, accumulate, specCompletedWeight, hw, List.filter_cons] <;> ring
    · cases score <;>
        simp [applyScenario, accumulate, specCompletedWeight, hw, List.filter_cons]

theorem validateInputs_isValid_iff (components : List ComponentData) (fw : ℚ)
    (targetGrade : JsNum) :
    (validateInputs components (.num fw) targetGrade).isValid = true ↔
      0 < fw ∧ (∃ t, targetGrade = .num t) ∧
        9999 / 100 ≤ sumWeights components + fw ∧ sumWeights components + fw ≤ 10001 / 100 := by
  unfold validateInputs
  simp only [foldl_weight_eq, zero_add]
  by_cases hfw : fw ≤ 0
  · have h1 : fw = 0 ∨ fw ≤ 0 := Or.inr hfw
    simp [h1, not_lt.mpr hfw]
  · have h1 : ¬ (fw = 0 ∨ fw ≤ 0) := by
      rintro (h | h)
      · exact hfw (le_of_eq h)
      · exact hfw h
    have hpos : 0 < fw := not_le.mp hfw
    cases targetGrade with
    | null => simp [h1]
    | nan => simp [h1]
    | num t =>
      simp only [h1, if_false, hpos, true_and]
      by_cases hlo : sumWeights components + fw < 9999 / 100
      · simp [hlo, not_le.mpr hlo]
      · by_cases hhi : sumWeights components + fw > 10001 / 100
        · simp [hlo, hhi, not_le.mpr hhi]
        · simp [hlo, hhi, not_lt.mp hlo, not_lt.mp hhi]

theorem calculate_of_valid (components : List ComponentData) (fw : ℚ) (targetGrade : JsNum)
    (scenarioValue : ℚ)
    (h : (validateInputs components (.num fw) targetGrade).isValid = true) :
    calculate components (some fw) targetGrade scenarioValue =
      .success
        { requiredScore :=
            jsDiv (jsSub targetGrade (specCurrentWeighted components scenarioValue)) (fw / 100)
          currentWeighted := specCurrentWeighted components scenarioValue
          targetGrade := targetGrade
          finalWeight := fw
          completedWeight := specCompletedWeight components } := by
  simp [calculate, parseFloatOrZero, h, foldl_accumulate_fst, foldl_accumulate_snd]

theorem calculate_of_invalid (components : List ComponentData) (fwI : Option ℚ)
    (targetGrade : JsNum) (scenarioValue : ℚ)
    (h : (validateInputs components (.num (parseFloatOrZero fwI)) targetGrade).isValid = false) :
    calculate components fwI targetGrade scenarioValue =
      .failure (validateInputs components (.num (parseFloatOrZero fwI)) targetGrade).message := by
  simp [calculate, h]

theorem calculate_eq_some (components : List ComponentData) (fwI : Option ℚ)
    (targetGrade : JsNum) (scenarioValue : ℚ) :
    calculate components fwI targetGrade scenarioValue =
      calculate components (some (parseFloatOrZero fwI)) targetGrade scenarioValue := by
  simp [calculate, parseFloatOrZero]

theorem valid_of_calculate_success (components : List ComponentData) (fwI : Option ℚ)
    (targetGrade : JsNum) (scenarioValue : ℚ) (r : Success)
    (h : calculate components fwI targetGrade scenarioValue = .success r) :
    (validateInputs components (.num (parseFloatOrZero fwI)) targetGrade).isValid = true := by
  cases hv : (validateInputs components (.num (parseFloatOrZero fwI)) targetGrade).isValid with
  | true => rfl
  | false =>
    rw [calculate_of_invalid components fwI targetGrade scenarioValue hv] at h
    cases h

theorem applyScenario_of_present (scenarioValue : ℚ) (c : ComponentData)
    (h : c.score ≠ none) : applyScenario scenarioValue c = c := by
  simp [applyScenario, h]

theorem calculate_valid_record (components : List ComponentData) (fw : ℚ)
    (targetGrade : JsNum) (scenarioValue : ℚ)
    (h : (validateInputs components (.num fw) targetGrade).isValid = true) :
    ∃ t, targetGrade = .num t ∧ 0 < fw ∧
      calculate components (some fw) targetGrade scenarioValue =
        .success
          { requiredScore :=
              some ((t - specCurrentWeighted components scenarioValue) / (fw / 100))
            currentWeighted := specCurrentWeighted components scenarioValue
            targetGrade := .num t
            finalWeight := fw
            completedWeight := specCompletedWeight components } := by
  obtain ⟨hpos, ⟨t, rfl⟩, -, -⟩ := (validateInputs_isValid_iff components fw targetGrade).mp h
  have hne : fw / 100 ≠ 0 := by positivity
  refine ⟨t, rfl, hpos, ?_⟩
  rw [calculate_of_valid components fw _ scenarioValue h]
  simp [jsDiv, jsSub, hne]

theorem assignedIds_append (s : State) (pre post : List Op) :
    assignedIds s (pre ++ post) = assignedIds s pre ++ assignedIds (run s pre) post := by
  induction pre generalizing s with
  | nil => rfl
  | cons op ops ih => simp [assignedIds, run, ih]

theorem assignedIds_no_reset (ops : List Op) (hno : ∀ op ∈ ops, op ≠ Op.reset) (s : State) :
    List.Pairwise (· < ·) (assignedIds s ops) ∧
      ∀ i ∈ assignedIds s ops, s.componentIdCounter ≤ i := by
  induction ops generalizing s with
  | nil => simp [assignedIds]
  | cons op ops ih =>
    have hrest : ∀ o ∈ ops, o ≠ Op.reset := fun o ho => hno o (List.mem_cons_of_mem _ ho)
    cases op with
    | add =>
      obtain ⟨hp, hge⟩ := ih hrest (addComponent s).2
      have hc : (addComponent s).2.componentIdCounter = s.componentIdCounter + 1 := rfl
      rw [hc] at hge
      refine ⟨?_, ?_⟩
      · simp only [assignedIds, step, List.singleton_append, List.pairwise_cons]
        exact ⟨fun i hi => Nat.lt_of_succ_le (hge i hi), hp⟩
      · intro i hi
        simp only [assignedIds, step, List.singleton_append, List.mem_cons] at hi
        rcases hi with rfl | hi
        · exact Nat.le_refl _
        · exact Nat.le_of_succ_le (hge i hi)
    | remove id =>
      obtain ⟨hp, hge⟩ := ih hrest (removeComponent s id)
      exact ⟨by simpa [assignedIds, step] using hp, by simpa [assignedIds, step] using hge⟩
    | reset => exact absurd rfl (hno Op.reset (List.mem_cons_self _ _))

theorem applyScenario_zero_weight (scenarioValue : ℚ) (z : ComponentData)
    (hz : z.weight = 0) : applyScenario scenarioValue z = z := by
  simp [applyScenario, hz]

theorem accumulate_zero_weight (acc : ℚ × ℚ) (z : ComponentData) (hz : z.weight = 0) :
    accumulate acc z = acc := by
  unfold accumulate
  cases z.score <;> simp [hz]

theorem validateInputs_insert_zero (pre post : List ComponentData) (z : ComponentData)
    (finalWeight targetGrade : JsNum) (hz : z.weight = 0) :
    validateInputs (pre ++ z :: post) finalWeight targetGrade =
      validateInputs (pre ++ post) finalWeight targetGrade := by
  simp [validateInputs, List.foldl_append, hz]

theorem foldl_accumulate_insert_zero (scenarioValue : ℚ) (pre post : List ComponentData)
    (z : ComponentData) (acc : ℚ × ℚ) (hz : z.weight = 0) :
    ((pre ++ z :: post).map (applyScenario scenarioValue)).foldl accumulate acc =
      ((pre ++ post).map (applyScenario scenarioValue)).foldl accumulate acc := by
  simp [List.foldl_append, applyScenario_zero_weight scenarioValue z hz,
    accumulate_zero_weight _ z hz]

namespace IEEE

theorem two_pow_log2Fuel_le (fuel n : Nat) (hn : n ≠ 0) : 2 ^ log2Fuel fuel n ≤ n := by
  induction fuel generalizing n with
  | zero => simpa [log2Fuel] using Nat.pos_of_ne_zero hn
  | succ fuel ih =>
    unfold log2Fuel
    by_cases h2 : n < 2
    · simpa [h2] using Nat.pos_of_ne_zero hn
    · have hhalf : n / 2 ≠ 0 := by omega
      have := ih (n / 2) hhalf
      simp only [h2, if_false, pow_succ]
      omega

theorem le_roundHalfEven (a d : Nat) : a / d ≤ roundHalfEven a d := by
  unfold roundHalfEven
  simp only
  split_ifs <;> omega

theorem roundUnits_eq_zero_iff (a b : Nat) (hb : 0 < b) : roundUnits a b = 0 ↔ 2 * a ≤ b := by
  constructor
  · intro h
    by_contra hlt
    by_cases hab : a < b
    · have hq : a / b = 0 := Nat.div_eq_of_lt hab
      have hr : a % b = a := Nat.mod_eq_of_lt hab
      have : roundUnits a b = 1 := by
        simp only [roundUnits, hq, log2, log2Fuel, roundHalfEven]
        simp only [Nat.zero_sub, pow_zero, Nat.mul_one, hq, hr]
        have h1 : ¬ 2 * a < b := by omega
        have h2 : b < 2 * a := by omega
        simp [h1, h2]
      omega
    · have hq : a / b ≠ 0 := by
        have : 1 ≤ a / b := (Nat.one_le_div_iff hb).mpr (Nat.le_of_not_lt hab)
        omega
      have hk : 2 ^ (log2 (a / b) - 52) ≤ a / b :=
        le_trans (Nat.pow_le_pow_right (by decide) (Nat.sub_le _ _))
          (two_pow_log2Fuel_le _ _ hq)
      have hpos : 0 < b * 2 ^ (log2 (a / b) - 52) := Nat.mul_pos hb (by positivity)
      have hle : b * 2 ^ (log2 (a / b) - 52) ≤ a :=
        le_trans (Nat.mul_le_mul_left b hk) (Nat.mul_div_le a b)
      have h1 : 1 ≤ a / (b * 2 ^ (log2 (a / b) - 52)) := (Nat.one_le_div_iff hpos).mpr hle
      have h2 := le_roundHalfEven a (b * 2 ^ (log2 (a / b) - 52))
      have h3 : 0 < roundHalfEven a (b * 2 ^ (log2 (a / b) - 52)) := by omega
      have h4 : 0 < roundUnits a b := by
        unfold roundUnits
        exact Nat.mul_pos h3 (by positivity)
      omega
  · intro h
    have hab : a < b := by omega
    have hq : a / b = 0 := Nat.div_eq_of_lt hab
    have hr : a % b = a := Nat.mod_eq_of_lt hab
    simp only [roundUnits, hq, log2, log2Fuel, roundHalfEven]
    simp only [Nat.zero_sub, pow_zero, Nat.mul_one, hq, hr]
    by_cases h1 : 2 * a < b
    · simp [h1]
    · have h2 : ¬ b < 2 * a := by omega
      simp [h1, h2]

theorem scale_pos : 0 < scale := by
  unfold scale
  positivity

theorem falsy_or_fle_zero (fw : Dbl) : (falsy fw || fle fw (.fin 0)) = !flt (.fin 0) fw := by
  cases fw with
  | nan => rfl
  | inf s => cases s <;> rfl
  | fin n =>
    simp only [falsy, fle, flt]
    by_cases h0 : n = 0
    · subst h0
      decide
    · by_cases hpos : 0 < n
      · have hle : ¬ n ≤ 0 := by omega
        simp [h0, hpos, hle]
      · have hle : n ≤ 0 := by omega
        simp [h0, hpos, hle]

theorem flt_zero_iff (fw : Dbl) :
    flt (.fin 0) fw = true ↔ fw = .inf false ∨ ∃ n, 0 < n ∧ fw = .fin n := by
  cases fw with
  | nan => simp [flt]
  | inf s => cases s <;> simp [flt]
  | fin n => simp [flt]

theorem foldl_fadd_weight (components : List ComponentData) (a : Dbl) :
    components.foldl (fun sum c => fadd sum c.weight) a =
      (components.map (fun c => c.weight)).foldl fadd a := by
  rw [List.foldl_map]

theorem validateInputs_isValid_iff_double (components : List ComponentData) (fw : Dbl)
    (targetGrade : JsVal) :
    (validateInputs components (.num fw) targetGrade).isValid = true ↔
      flt (.fin 0) fw = true ∧ (∃ t, targetGrade = .num t ∧ t ≠ .nan) ∧
        flt (computedTotal components fw) (ofDecimal 9999 100) = false ∧
        flt (ofDecimal 10001 100) (computedTotal components fw) = false := by
  unfold validateInputs computedTotal
  simp only [falsy_or_fle_zero, foldl_fadd_weight]
  cases hfw : flt (.fin 0) fw with
  | false => simp
  | true =>
    cases targetGrade with
    | null => simp
    | num t =>
      by_cases ht : t = .nan
      · simp [ht]
      · cases hlo : flt (fadd ((components.map (fun c => c.weight)).foldl fadd (.fin 0)) fw)
            (ofDecimal 9999 100) <;>
          cases hhi : flt (ofDecimal 10001 100)
            (fadd ((components.map (fun c => c.weight)).foldl fadd (.fin 0)) fw) <;>
          simp [ht]

theorem roundDbl_false_eq_zero_iff (a b : Nat) (hb : 0 < b) :
    roundDbl false a b = .fin 0 ↔ 2 * a ≤ b := by
  rw [← roundUnits_eq_zero_iff a b hb]
  unfold roundDbl
  simp only
  by_cases hmax : maxUnits ≤ roundUnits a b
  · have hpos : 0 < maxUnits := by unfold maxUnits; positivity
    have hne : roundUnits a b ≠ 0 := by omega
    simp [hmax, hne]
  · simp [hmax]

theorem flt_zero_roundDbl_false (a b : Nat) (hb : 0 < b) :
    flt (.fin 0) (roundDbl false a b) = true ↔ b < 2 * a := by
  have hz := roundUnits_eq_zero_iff a b hb
  unfold roundDbl
  simp only
  by_cases hmax : maxUnits ≤ roundUnits a b
  · have hpos : 0 < maxUnits := by unfold maxUnits; positivity
    have hne : ¬ roundUnits a b = 0 := by omega
    have : ¬ 2 * a ≤ b := fun h => hne (hz.mpr h)
    simp only [hmax, if_true, flt, Bool.not_false, true_iff]
    omega
  · simp only [hmax, if_false, flt, Bool.false_eq_true, decide_eq_true_eq]
    constructor
    · intro h
      by_contra hc
      have h0 : roundUnits a b = 0 := hz.mpr (by omega)
      rw [h0] at h
      exact absurd h (by decide)
    · intro h
      have hne : roundUnits a b ≠ 0 := fun h0 => by
        have := hz.mp h0
        omega
      exact_mod_cast Nat.pos_of_ne_zero hne

theorem fdiv_fin_hundred (n : Int) (hn : 0 < n) :
    fdiv (.fin n) (ofNat 100) = roundDbl false (n.natAbs * scale) (100 * scale) := by
  have hs := scale_pos
  have hb : ((100 * scale : Nat) : Int) ≠ 0 := by
    have : 0 < 100 * scale := by omega
    exact_mod_cast this.ne'
  have hbneg : ¬ ((100 * scale : Nat) : Int) < 0 := by
    have : (0 : Int) ≤ ((100 * scale : Nat) : Int) := Int.ofNat_nonneg _
    omega
  have hnneg : ¬ n < 0 := by omega
  simp only [fdiv, ofNat, hb, if_false, hbneg, hnneg, decide_False, Int.natAbs_ofNat]
  rfl

theorem fdiv_hundred_eq_zero_iff (n : Int) (hn : 0 < n) :
    fdiv (.fin n) (ofNat 100) = .fin 0 ↔ n ≤ 50 := by
  have hs := scale_pos
  rw [fdiv_fin_hundred n hn, roundDbl_false_eq_zero_iff _ _ (by omega)]
  have hcancel : 2 * (n.natAbs * scale) ≤ 100 * scale ↔ 2 * n.natAbs ≤ 100 := by
    rw [← Nat.mul_assoc]
    exact ⟨fun h => Nat.le_of_mul_le_mul_right h hs, fun h => Nat.mul_le_mul_right _ h⟩
  rw [hcancel]
  omega

theorem flt_zero_fdiv_hundred (n : Int) (hn : 0 < n) :
    flt (.fin 0) (fdiv (.fin n) (ofNat 100)) = true ↔ 50 < n := by
  have hs := scale_pos
  rw [fdiv_fin_hundred n hn, flt_zero_roundDbl_false _ _ (by omega)]
  have hcancel : 100 * scale < 2 * (n.natAbs * scale) ↔ 100 < 2 * n.natAbs := by
    rw [← Nat.mul_assoc]
    exact Nat.mul_lt_mul_right hs
  rw [hcancel]
  omega

theorem fdiv_inf_hundred : fdiv (.inf false) (ofNat 100) = .inf false := by
  have hneg : ¬ ((100 * scale : Nat) : Int) < 0 := by
    have : (0 : Int) ≤ ((100 * scale : Nat) : Int) := Int.ofNat_nonneg _
    omega
  simp only [fdiv, ofNat, hneg, decide_False]
  rfl

theorem orZero_of_pos (d : Dbl) (h : flt (.fin 0) (orZero d) = true) : orZero d = d := by
  unfold orZero at h ⊢
  cases hf : falsy d with
  | false => simp
  | true =>
    rw [hf] at h
    simp [flt] at h

theorem calculate_of_valid_double (components : List ComponentData) (finalWeightInput : Dbl)
    (targetGrade : JsVal) (scenarioValue : Dbl)
    (h : (validateInputs components (.num (orZero finalWeightInput)) targetGrade).isValid
      = true) :
    calculate components finalWeightInput targetGrade scenarioValue =
      .success
        { requiredScore :=
            fdiv
              (fsub (toNumber targetGrade)
                ((components.map (applyScenario scenarioValue)).foldl accumulate
                  (.fin 0, .fin 0)).1)
              (fdiv (orZero finalWeightInput) (ofNat 100))
          currentWeighted :=
            ((components.map (applyScenario scenarioValue)).foldl accumulate
              (.fin 0, .fin 0)).1
          targetGrade := targetGrade
          finalWeight := orZero finalWeightInput
          completedWeight :=
            ((components.map (applyScenario scenarioValue)).foldl accumulate
              (.fin 0, .fin 0)).2 } := by
  simp [calculate, h]

end IEEE

/-! ## Calculation and validation -/

/-- C1: when validation passes, `calculate` returns a Success whose `currentWeighted` is the
sum over the components with weight `> 0` of `s * weight / 100` (`s` the own score, or the
scenario value when the score is absent), whose `requiredScore` is
`(targetGrade - currentWeighted) / (finalWeight / 100)` unrounded, and which returns
`targetGrade` and `finalWeight` unchanged. -/
theorem calculate_success_exact (components : List ComponentData) (fw : ℚ)
    (targetGrade : JsNum) (scenarioValue : ℚ)
    (hvalid : (validateInputs components (.num fw) targetGrade).isValid = true) :
    ∃ t r, targetGrade = .num t ∧
      calculate components (some fw) targetGrade scenarioValue = .success r ∧
      r.currentWeighted = specCurrentWeighted components scenarioValue ∧
      r.requiredScore = some ((t - r.currentWeighted) / (fw / 100)) ∧
      r.targetGrade = targetGrade ∧ r.finalWeight = fw := by
  obtain ⟨t, ht, -, hr⟩ := calculate_valid_record components fw targetGrade scenarioValue hvalid
  exact ⟨t, _, ht, hr, rfl, rfl, ht.symm, rfl⟩

/-- Witness for C1: one blank component of weight 50, final weight 50, target 70 and
scenario value 60. -/
theorem calculate_success_exact_witness :
    ∃ t r, JsNum.num 70 = .num t ∧
      calculate [{ name := "", weight := 50, score := none }] (some 50) (.num 70) 60
        = .success r ∧
      r.currentWeighted =
        specCurrentWeighted [{ name := "", weight := 50, score := none }] 60 ∧
      r.requiredScore = some ((t - r.currentWeighted) / (50 / 100)) ∧
      r.targetGrade = .num 70 ∧ r.finalWeight = 50 :=
  calculate_success_exact [{ name := "", weight := 50, score := none }] 50 (.num 70) 60
    (by rw [validateInputs_isValid_iff]; norm_num [sumWeights])

/-- C2: whenever `calculate` returns Success,
`currentWeighted + requiredScore * finalWeight / 100 = targetGrade`. -/
theorem calculate_required_reaches_target (components : List ComponentData)
    (fwI : Option ℚ) (targetGrade : JsNum) (scenarioValue : ℚ) (r : Success)
    (h : calculate components fwI targetGrade scenarioValue = .success r) :
    ∃ rs t, r.requiredScore = some rs ∧ r.targetGrade = .num t ∧
      r.currentWeighted + rs * r.finalWeight / 100 = t := by
  have hv := valid_of_calculate_success components fwI targetGrade scenarioValue r h
  obtain ⟨t, rfl, hpos, hr⟩ :=
    calculate_valid_record components (parseFloatOrZero fwI) targetGrade scenarioValue hv
  rw [calculate_eq_some, hr] at h
  cases h
  refine ⟨_, t, rfl, rfl, ?_⟩
  field_simp

/-- Witness for C2: components (30, 80) and (30, 90), final weight 40, target 85. -/
theorem calculate_required_reaches_target_witness :
    ∃ rs t, (some 85 : Option ℚ) = some rs ∧ JsNum.num 85 = .num t ∧
      (51 : ℚ) + rs * 40 / 100 = t :=
  calculate_required_reaches_target
    [{ name := "", weight := 30, score := some 80 }, { name := "", weight := 30, score := some 90 }]
    (some 40) (.num 85) 0
    { requiredScore := some 85, currentWeighted := 51, targetGrade := .num 85,
      finalWeight := 40, completedWeight := 60 }
    (by
      rw [calculate_of_valid _ _ _ _ (by rw [validateInputs_isValid_iff]; norm_num [sumWeights])]
      norm_num [specCurrentWeighted, specCompletedWeight, jsDiv, jsSub])

/-- C4: the first failing rule decides the message. If the final weight is absent or `<= 0`,
`calculate` fails with the final-exam-weight message whatever the target grade and the
weights are; if the final weight is `> 0` and the target grade is absent or NaN, it fails
with the target-grade message whatever the weights are. -/
theorem calculate_first_failing_rule (components : List ComponentData) (fwI : Option ℚ)
    (targetGrade : JsNum) (scenarioValue : ℚ) :
    ((fwI = none ∨ ∃ q, fwI = some q ∧ q ≤ 0) →
        calculate components fwI targetGrade scenarioValue
          = .failure "Please enter the final exam weight.") ∧
      (∀ q, fwI = some q → 0 < q → (targetGrade = .null ∨ targetGrade = .nan) →
        calculate components fwI targetGrade scenarioValue
          = .failure "Please select or enter a target grade.") := by
  constructor
  · rintro (rfl | ⟨q, rfl, hq⟩)
    · simp [calculate, validateInputs, parseFloatOrZero]
    · have h1 : q = 0 ∨ q ≤ 0 := Or.inr hq
      simp [calculate, validateInputs, parseFloatOrZero, h1]
  · rintro q rfl hq (rfl | rfl)
    · have h1 : ¬ (q = 0 ∨ q ≤ 0) := by
        rintro (h | h)
        · exact absurd hq (by rw [h]; exact lt_irrefl 0)
        · exact absurd hq (not_lt.mpr h)
      simp [calculate, validateInputs, parseFloatOrZero, h1]
    · have h1 : ¬ (q = 0 ∨ q ≤ 0) := by
        rintro (h | h)
        · exact absurd hq (by rw [h]; exact lt_irrefl 0)
        · exact absurd hq (not_lt.mpr h)
      simp [calculate, validateInputs, parseFloatOrZero, h1]

/-- Witness for C4: a blank final weight with weights totalling 250 and no target, and
final weight 40 with a NaN target and weights totalling 90. -/
theorem calculate_first_failing_rule_witness :
    calculate [{ name := "", weight := 250, score := none }] none .null 0
        = .failure "Please enter the final exam weight." ∧
      calculate [{ name := "", weight := 50, score := none }] (some 40) .nan 0
        = .failure "Please select or enter a target grade." :=
  ⟨(calculate_first_failing_rule _ none .null 0).1 (Or.inl rfl),
   (calculate_first_failing_rule _ (some 40) .nan 0).2 40 rfl (by norm_num) (Or.inr rfl)⟩

/-- C6: the scenario substitution leaves a component with a present score unchanged, so
when every component has a present score, any two scenario values give the same result of
`calculate`, and in particular the same `currentWeighted`. -/
theorem calculate_scenario_irrelevant (components : List ComponentData) (fwI : Option ℚ)
    (targetGrade : JsNum) (s₁ s₂ : ℚ) (hpresent : ∀ c ∈ components, c.score ≠ none) :
    (∀ c ∈ components, applyScenario s₁ c = c) ∧
      components.map (applyScenario s₁) = components ∧
      calculate components fwI targetGrade s₁ = calculate components fwI targetGrade s₂ ∧
      specCurrentWeighted components s₁ = specCurrentWeighted components s₂ := by
  have hmap : ∀ sv, components.map (applyScenario sv) = components := by
    intro sv
    calc components.map (applyScenario sv) = components.map id :=
          List.map_congr_left (fun c hc => applyScenario_of_present sv c (hpresent c hc))
      _ = components := List.map_id components
  have hcw : specCurrentWeighted components s₁ = specCurrentWeighted components s₂ := by
    have h1 := foldl_accumulate_fst s₁ components (0, 0)
    have h2 := foldl_accumulate_fst s₂ components (0, 0)
    rw [hmap] at h1 h2
    simpa using h1.symm.trans h2
  refine ⟨fun c hc => applyScenario_of_present s₁ c (hpresent c hc), hmap s₁, ?_, hcw⟩
  simp only [calculate, hmap]

/-- Witness for C6: components (30, 80) and (30, 90) with scenario values 0 and 100. -/
theorem calculate_scenario_irrelevant_witness :
    (∀ c ∈ ([{ name := "", weight := 30, score := some 80 },
          { name := "", weight := 30, score := some 90 }] : List ComponentData),
        applyScenario 0 c = c) ∧
      ([{ name := "", weight := 30, score := some 80 },
          { name := "", weight := 30, score := some 90 }] : List ComponentData).map
            (applyScenario 0) =
        [{ name := "", weight := 30, score := some 80 },
          { name := "", weight := 30, score := some 90 }] ∧
      calculate [{ name := "", weight := 30, score := some 80 },
          { name := "", weight := 30, score := some 90 }] (some 40) (.num 85) 0 =
        calculate [{ name := "", weight := 30, score := some 80 },
          { name := "", weight := 30, score := some 90 }] (some 40) (.num 85) 100 ∧
      specCurrentWeighted [{ name := "", weight := 30, score := some 80 },
          { name := "", weight := 30, score := some 90 }] 0 =
        specCurrentWeighted [{ name := "", weight := 30, score := some 80 },
          { name := "", weight := 30, score := some 90 }] 100 :=
  calculate_scenario_irrelevant _ (some 40) (.num 85) 0 100 (by simp)

/-! ## Classification -/

/-- C7: the category chosen by the `if`/`else` chain of `displayResults` is the one of the
threshold table: Secured iff `r <= 0`, Achievable iff `0 < r <= 85`, Difficult iff
`85 < r <= 95`, Unlikely iff `95 < r <= 100`, Impossible iff `r > 100`; exactly one
category applies to every `r`. -/
theorem statusCategory_thresholds (r : ℚ) :
    (statusCategory r = .secured ↔ r ≤ 0) ∧
      (statusCategory r = .achievable ↔ 0 < r ∧ r ≤ 85) ∧
      (statusCategory r = .difficult ↔ 85 < r ∧ r ≤ 95) ∧
      (statusCategory r = .unlikely ↔ 95 < r ∧ r ≤ 100) ∧
      (statusCategory r = .impossible ↔ r > 100) ∧
      (∀ cat, statusCategory r = cat ↔ specCategory r cat) ∧
      (∃! cat, specCategory r cat) := by
  have key : ∀ cat, statusCategory r = cat ↔ specCategory r cat := by
    intro cat
    unfold statusCategory
    split_ifs with h0 h100 h85 h95 <;> cases cat <;> simp only [specCategory] <;>
      constructor <;> intro h <;>
      first
        | rfl
        | trivial
        | exact False.elim h
        | linarith
        | exact ⟨by linarith, by linarith⟩
  refine ⟨key _, key _, key _, key _, key _, key, statusCategory r, (key _).mp rfl, ?_⟩
  intro cat hcat
  exact ((key cat).mpr hcat).symm

/-- C8, as stated, fails: a required score of exactly 85 is classified Achievable, not
Difficult. -/
theorem statusCategory_85_counterexample :
    statusCategory 85 = .achievable ∧ statusCategory 85 ≠ .difficult := by
  have h : statusCategory 85 = .achievable := by norm_num [statusCategory]
  exact ⟨h, by rw [h]; decide⟩

/-- C8, amended: for components (30, 80) and (30, 90), final weight 40 and target 85, with
any scenario value, `calculate` returns `currentWeighted = 51` and `requiredScore = 85`,
and a required score of exactly 85 is classified Achievable. -/
theorem calculate_scenario_one (scenarioValue : ℚ) :
    calculate
        [{ name := "", weight := 30, score := some 80 },
          { name := "", weight := 30, score := some 90 }]
        (some 40) (.num 85) scenarioValue =
      .success
        { requiredScore := some 85, currentWeighted := 51, targetGrade := .num 85,
          finalWeight := 40, completedWeight := 60 } ∧
      statusCategory 85 = .achievable := by
  constructor
  · rw [calculate_of_valid _ _ _ _ (by rw [validateInputs_isValid_iff]; norm_num [sumWeights])]
    norm_num [specCurrentWeighted, specCompletedWeight, jsDiv, jsSub]
  · norm_num [statusCategory]

/-! ## Registry -/

/-- C9, as stated, fails: after the two `addComponent` calls of page load, a reset assigns
the ids 0 and 1 a second time. -/
theorem assignedIds_reset_counterexample :
    assignedIds initialState [.add, .add, .reset] = [0, 1, 0, 1] ∧
      ¬ List.Pairwise (· < ·) (assignedIds initialState [.add, .add, .reset]) ∧
      ¬ (assignedIds initialState [.add, .add, .reset]).Nodup := by
  have h : assignedIds initialState [.add, .add, .reset] = [0, 1, 0, 1] := rfl
  rw [h]
  decide

/-- C9, amended: ids are never reused between resets. From every state, over every sequence
of add and remove operations, each `addComponent` assigns an id strictly greater than every
id assigned by an earlier `addComponent` of the sequence, and not below the counter at its
start; the same holds when the sequence is preceded by a reset, the two components the
reset itself adds included, the first of which gets id 0 again. -/
theorem assignedIds_increasing_between_resets (s : State) (ops : List Op)
    (hno : ∀ op ∈ ops, op ≠ Op.reset) :
    List.Pairwise (· < ·) (assignedIds s ops) ∧
      (∀ i ∈ assignedIds s ops, s.componentIdCounter ≤ i) ∧
      List.Pairwise (· < ·) (assignedIds s (.reset :: ops)) ∧
      (assignedIds s (.reset :: ops)).head? = some 0 := by
  obtain ⟨hp, hge⟩ := assignedIds_no_reset ops hno s
  refine ⟨hp, hge, ?_, rfl⟩
  obtain ⟨hp2, hge2⟩ := assignedIds_no_reset ops hno (resetCalculator s).2
  have hc : (resetCalculator s).2.componentIdCounter = 2 := rfl
  rw [hc] at hge2
  have hids : assignedIds s (.reset :: ops) = 0 :: 1 :: assignedIds (resetCalculator s).2 ops :=
    rfl
  rw [hids, List.pairwise_cons, List.pairwise_cons]
  refine ⟨?_, ?_, hp2⟩
  · intro i hi
    rcases List.mem_cons.mp hi with rfl | hi
    · exact Nat.zero_lt_one
    · exact Nat.lt_of_lt_of_le (by decide) (hge2 i hi)
  · intro i hi
    exact Nat.lt_of_lt_of_le (by decide) (hge2 i hi)

/-- Witness for C9: add, remove the component with id 0, add, from the initial state. -/
theorem assignedIds_increasing_between_resets_witness :
    List.Pairwise (· < ·) (assignedIds initialState [.add, .remove 0, .add]) ∧
      (∀ i ∈ assignedIds initialState [.add, .remove 0, .add],
        initialState.componentIdCounter ≤ i) ∧
      List.Pairwise (· < ·) (assignedIds initialState [.reset, .add, .remove 0, .add]) ∧
      (assignedIds initialState [.reset, .add, .remove 0, .add]).head? = some 0 :=
  assignedIds_increasing_between_resets initialState [.add, .remove 0, .add] (by decide)

/-- C10: `removeComponent(id)` leaves `state.components` equal to the previous sequence with
the components of that id deleted, the others unchanged and in the same relative order; when
no component has that id the state is left exactly as it was; the id counter, target grade,
scenario value and final weight are unchanged. -/
theorem removeComponent_frame (s : State) (id : Nat) :
    (removeComponent s id).components = s.components.filter (fun c => decide (c.id ≠ id)) ∧
      List.Sublist (removeComponent s id).components s.components ∧
      (∀ c, c ∈ (removeComponent s id).components ↔ c ∈ s.components ∧ c.id ≠ id) ∧
      (∀ c, (removeComponent s id).components.count c =
        if c.id = id then 0 else s.components.count c) ∧
      ((∀ c ∈ s.components, c.id ≠ id) → removeComponent s id = s) ∧
      (removeComponent s id).componentIdCounter = s.componentIdCounter ∧
      (removeComponent s id).targetGrade = s.targetGrade ∧
      (removeComponent s id).scenarioValue = s.scenarioValue ∧
      (removeComponent s id).finalWeight = s.finalWeight := by
  have hfilter : (removeComponent s id).components
      = s.components.filter (fun c => decide (c.id ≠ id)) := by
    simp only [removeComponent]
    congr 1
    funext c
    by_cases hc : c.id = id <;> simp [hc]
  refine ⟨hfilter, ?_, ?_, ?_, ?_, rfl, rfl, rfl, rfl⟩
  · rw [hfilter]
    exact List.filter_sublist _
  · intro c
    rw [hfilter]
    simp [List.mem_filter]
  · intro c
    rw [hfilter]
    by_cases hc : c.id = id
    · rw [if_pos hc, List.count_eq_zero]
      intro hm
      have hne := (List.mem_filter.mp hm).2
      simp [hc] at hne
    · rw [if_neg hc]
      exact List.count_filter (by simpa using hc)
  · intro h
    have hc : (removeComponent s id).components = s.components := by
      rw [hfilter, List.filter_eq_self]
      intro c hc
      simpa using h c hc
    cases s
    simp only [removeComponent] at hc ⊢
    simp [hc]

/-! ## Zero-weight components -/

/-- C11: components with weight 0 cannot affect the result. Inserting a component of weight
0, with any score, at any position of the component list leaves the result of `calculate`
unchanged (the same Failure message, or the same Success record), and the substitution
returns a zero-weight component as it is, so one with an absent score keeps it absent. -/
theorem calculate_insert_zero_weight (pre post : List ComponentData) (z : ComponentData)
    (fwI : Option ℚ) (targetGrade : JsNum) (scenarioValue : ℚ) (hz : z.weight = 0) :
    calculate (pre ++ z :: post) fwI targetGrade scenarioValue =
        calculate (pre ++ post) fwI targetGrade scenarioValue ∧
      applyScenario scenarioValue z = z ∧
      (z.score = none → (applyScenario scenarioValue z).score = none) ∧
      (pre ++ z :: post).map (applyScenario scenarioValue) =
        pre.map (applyScenario scenarioValue) ++ z :: post.map (applyScenario scenarioValue) := by
  have hz' := applyScenario_zero_weight scenarioValue z hz
  refine ⟨?_, hz', ?_, ?_⟩
  · unfold calculate
    simp only [validateInputs_insert_zero pre post z _ targetGrade hz,
      foldl_accumulate_insert_zero scenarioValue pre post z (0, 0) hz]
  · intro hs
    rw [hz', hs]
  · rw [List.map_append, List.map_cons, hz']

/-- Witness for C11: a blank zero-weight component inserted after a blank component of
weight 50, with final weight 50, target 70 and scenario value 60. -/
theorem calculate_insert_zero_weight_witness :
    calculate [{ name := "", weight := 50, score := none },
          { name := "", weight := 0, score := none }] (some 50) (.num 70) 60 =
        calculate [{ name := "", weight := 50, score := none }] (some 50) (.num 70) 60 ∧
      applyScenario 60 { name := "", weight := 0, score := none } =
        { name := "", weight := 0, score := none } ∧
      ((none : Option ℚ) = none →
        (applyScenario 60 { name := "", weight := 0, score := none }).score = none) ∧
      ([{ name := "", weight := 50, score := none },
          { name := "", weight := 0, score := none }] : List ComponentData).map
            (applyScenario 60) =
        [applyScenario 60 { name := "", weight := 50, score := none },
          { name := "", weight := 0, score := none }] :=
  calculate_insert_zero_weight [{ name := "", weight := 50, score := none }] []
    { name := "", weight := 0, score := none } (some 50) (.num 70) 60 rfl

/-! ## Double precision: the weight band and the divisor -/

namespace IEEE

/-- C3, as stated, fails, in three ways. With one component of weight 60, final weight 40 and
no target grade selected the total is exactly 100 and `isValid` is false. With weights entered
as 0.01 and 33.16 and final weight 66.82, decimals that total exactly 99.99, the double sum
falls below the double 99.99 and `isValid` is false. With no component and final weight
entered as 99.99, the double lies below the real 99.99, outside the interval, and `isValid`
is true. -/
theorem validateInputs_band_counterexample_double :
    ((validateInputs [{ name := "", weight := ofNat 60, score := none }] (.num (ofNat 40))
          .null).isValid = false ∧
        computedTotal [{ name := "", weight := ofNat 60, score := none }] (ofNat 40)
          = ofNat 100 ∧
        exactInBand (ofNat 100) = true) ∧
      ((1 + 3316 + 6682 : Nat) = 9999 ∧
        (validateInputs
          [{ name := "", weight := ofDecimal 1 100, score := none },
            { name := "", weight := ofDecimal 3316 100, score := none }]
          (.num (ofDecimal 6682 100)) (.num (ofNat 85))).isValid = false) ∧
      (exactInBand (ofDecimal 9999 100) = false ∧
        (validateInputs [] (.num (ofDecimal 9999 100)) (.num (ofNat 85))).isValid = true) := by
  decide!

/-- C3, amended: for a final weight that is present and `> 0` and a target grade that is
present and not NaN, `validateInputs` returns `isValid = false` if and only if the total as
the program computes it (the component weights added left to right in double precision, then
the final weight) is below the double 99.99 or above the double 100.01. -/
theorem validateInputs_band_iff_double (components : List ComponentData) (fw t : Dbl)
    (hfw : flt (.fin 0) fw = true) (ht : t ≠ .nan) :
    (validateInputs components (.num fw) (.num t)).isValid = false ↔
      (flt (computedTotal components fw) (ofDecimal 9999 100) = true ∨
        flt (ofDecimal 10001 100) (computedTotal components fw) = true) := by
  rw [← Bool.not_eq_true, validateInputs_isValid_iff_double]
  constructor
  · intro h
    by_contra hc
    push_neg at hc
    exact h ⟨hfw, ⟨t, rfl, ht⟩, by simpa using hc.1, by simpa using hc.2⟩
  · rintro (h | h) ⟨-, -, h1, h2⟩
    · rw [h] at h1
      exact absurd h1 (by decide)
    · rw [h] at h2
      exact absurd h2 (by decide)

/-- Witness for C3: weights 30 and 20 with final weight 40 total 90, below the band. -/
theorem validateInputs_band_iff_double_witness :
    (validateInputs
        [{ name := "", weight := ofNat 30, score := none },
          { name := "", weight := ofNat 20, score := none }]
        (.num (ofNat 40)) (.num (ofNat 85))).isValid = false ↔
      (flt
          (computedTotal
            [{ name := "", weight := ofNat 30, score := none },
              { name := "", weight := ofNat 20, score := none }]
            (ofNat 40))
          (ofDecimal 9999 100) = true ∨
        flt (ofDecimal 10001 100)
          (computedTotal
            [{ name := "", weight := ofNat 30, score := none },
              { name := "", weight := ofNat 20, score := none }]
            (ofNat 40)) = true) :=
  validateInputs_band_iff_double _ (ofNat 40) (ofNat 85) (by decide!) (by decide!)

/-- C5, as stated, fails: with one component of weight 100 and score 50, target 85 and final
weight entered as 1e-323 (two units of `2^-1074`), validation passes, `finalWeight / 100`
underflows to 0, and the division returns `Infinity`. -/
theorem calculate_divides_by_zero_counterexample :
    (!(validateInputs [{ name := "", weight := ofNat 100, score := some (ofNat 50) }]
          (.num (orZero (.fin 2))) (.num (ofNat 85))).isValid) = false ∧
      flt (.fin 0) (fdiv (orZero (.fin 2)) (ofNat 100)) = false ∧
      fdiv (orZero (.fin 2)) (ofNat 100) = .fin 0 ∧
      calculate [{ name := "", weight := ofNat 100, score := some (ofNat 50) }] (.fin 2)
          (.num (ofNat 85)) (.fin 0) =
        .success
          { requiredScore := .inf false, currentWeighted := ofNat 50,
            targetGrade := .num (ofNat 85), finalWeight := .fin 2,
            completedWeight := ofNat 100 } := by
  decide!

/-- C5, amended: `calculate` divides by zero only on underflow. Whenever execution passes the
validation guard and so reaches the division, `finalWeight` is strictly positive, and
`finalWeight / 100` is strictly positive unless `finalWeight` is at most 50 units of
`2^-1074` (about 2.47e-322), in which case the quotient underflows to 0; the result returned
is the quotient by that divisor; and `validateInputs` rejects every final weight that is
absent, NaN or `<= 0`. -/
theorem calculate_divisor_zero_iff_underflow (components : List ComponentData)
    (finalWeightInput : Dbl) (targetGrade : JsVal) (scenarioValue : Dbl)
    (hreach :
      (!(validateInputs components (.num (orZero finalWeightInput)) targetGrade).isValid)
        = false) :
    flt (.fin 0) (orZero finalWeightInput) = true ∧
      (flt (.fin 0) (fdiv (orZero finalWeightInput) (ofNat 100)) = true ↔
        ¬ ∃ n, orZero finalWeightInput = .fin n ∧ n ≤ 50) ∧
      (fdiv (orZero finalWeightInput) (ofNat 100) = .fin 0 ↔
        ∃ n, orZero finalWeightInput = .fin n ∧ n ≤ 50) ∧
      (∃ r, calculate components finalWeightInput targetGrade scenarioValue = .success r ∧
        r.requiredScore =
          fdiv (fsub (toNumber targetGrade) r.currentWeighted)
            (fdiv (orZero finalWeightInput) (ofNat 100))) ∧
      (∀ (cs : List ComponentData) (fw tg : JsVal),
        (fw = .null ∨ ∃ d, fw = .num d ∧ (d = .nan ∨ fle d (.fin 0) = true)) →
          (validateInputs cs fw tg).isValid = false) := by
  have hv : (validateInputs components (.num (orZero finalWeightInput)) targetGrade).isValid
      = true := by simpa using hreach
  have hpos := ((validateInputs_isValid_iff_double components _ _).mp hv).1
  refine ⟨hpos, ?_, ?_, ?_, ?_⟩
  · rcases (flt_zero_iff _).mp hpos with hinf | ⟨n, hn, hfin⟩
    · rw [hinf, fdiv_inf_hundred]
      constructor
      · rintro - ⟨n, hn, -⟩
        cases hn
      · intro _
        rfl
    · rw [hfin, flt_zero_fdiv_hundred n hn]
      constructor
      · rintro h ⟨m, hm, hle⟩
        cases hm
        omega
      · intro h
        by_contra hc
        exact h ⟨n, rfl, by omega⟩
  · rcases (flt_zero_iff _).mp hpos with hinf | ⟨n, hn, hfin⟩
    · rw [hinf, fdiv_inf_hundred]
      constructor
      · intro h
        cases h
      · rintro ⟨n, hn, -⟩
        cases hn
    · rw [hfin, fdiv_hundred_eq_zero_iff n hn]
      constructor
      · intro h
        exact ⟨n, rfl, h⟩
      · rintro ⟨m, hm, hle⟩
        cases hm
        exact hle
  · exact ⟨_, calculate_of_valid_double components finalWeightInput targetGrade
      scenarioValue hv, rfl⟩
  · rintro cs fw tg (rfl | ⟨d, rfl, hd⟩)
    · rfl
    · have hrule : (falsy d || fle d (.fin 0)) = true := by
        rcases hd with rfl | hd
        · rfl
        · simp [hd]
      simp [validateInputs, hrule]

/-- Witness for C5: one blank component of weight 50, final weight 50, target 70 and
scenario value 60. -/
theorem calculate_divisor_zero_iff_underflow_witness :
    flt (.fin 0) (orZero (ofNat 50)) = true ∧
      (flt (.fin 0) (fdiv (orZero (ofNat 50)) (ofNat 100)) = true ↔
        ¬ ∃ n, orZero (ofNat 50) = .fin n ∧ n ≤ 50) ∧
      (fdiv (orZero (ofNat 50)) (ofNat 100) = .fin 0 ↔
        ∃ n, orZero (ofNat 50) = .fin n ∧ n ≤ 50) ∧
      (∃ r, calculate [{ name := "", weight := ofNat 50, score := none }] (ofNat 50)
          (.num (ofNat 70)) (ofNat 60) = .success r ∧
        r.requiredScore =
          fdiv (fsub (toNumber (.num (ofNat 70))) r.currentWeighted)
            (fdiv (orZero (ofNat 50)) (ofNat 100))) ∧
      (∀ (cs : List ComponentData) (fw tg : JsVal),
        (fw = .null ∨ ∃ d, fw = .num d ∧ (d = .nan ∨ fle d (.fin 0) = true)) →
          (validateInputs cs fw tg).isValid = false) :=
  calculate_divisor_zero_iff_underflow [{ name := "", weight := ofNat 50, score := none }]
    (ofNat 50) (.num (ofNat 70)) (ofNat 60) (by decide!)

end IEEE

end GradeCalc
